import Mathlib

/-!
Verification development for the BOT-universal trading engine.

Shallow embedding of the pair-worker position state machine
(`core/pair_manager.py`), the strategy condition engine
(`strategy/base_strategy.py`), the backtest engine
(`core/backtest_engine.py`), the risk manager (`core/risk_manager.py`),
the websocket kline handler (`core/websocket_manager.py`) and the
SQLite pair-state store (`core/state_store.py`).

Python floats are modelled as rationals (ℚ); exchange/network results
that may be absent are modelled as `Option`; dictionaries keyed by
symbol are modelled as functions updated with `Function.update`;
the SQLite `pairs_state` table is modelled as an association list.
-/

/-- Trade direction. The source stores direction as an upper-cased string and
branches on equality with the string LONG, treating everything else as SHORT;
the two-constructor type captures exactly those branches. -/
inductive Dir where
  | LONG
  | SHORT
deriving DecidableEq, Repr

/-- Run mode (`StrategySettings.run_mode` in `strategy/base_strategy.py`). -/
inductive RunMode where
  | Live
  | Paper
  | Backtest
deriving DecidableEq, Repr

/-- `StrategySettings` dataclass from `strategy/base_strategy.py` (lines 11-56),
restricted to the fields the verified operations read.  Defaults follow the
dataclass defaults. -/
structure StrategySettings where
  rsi_level : ℚ := 30
  take_profit_pct : ℚ := 1
  base_order_size_usdt : ℚ := 25
  safety_step_pct : ℚ := 2
  safety_orders_count : ℕ := 3
  volume_multiplier : ℚ := 3/2
  commission_pct : ℚ := 1/10
  enable_futures : Bool := false
  break_even_after_percent : ℚ := 3/10
  futures_position_side : Dir := Dir.LONG
  cooldown_minutes : ℚ := 0
  anti_reentry_threshold_pct : ℚ := 1/5
  run_mode : RunMode := RunMode.Live
  use_rsi : Bool := true
  use_ema_trend_filter : Bool := true
  use_adx_filter : Bool := true
  use_volume_filter : Bool := false
  use_atr_filter : Bool := false
  adx_threshold : ℚ := 20
  volume_spike_multiplier : ℚ := 3/2
  atr_min_value : ℚ := 0
  stop_loss_pct : ℚ := 1
deriving DecidableEq, Repr

/-- Mutable per-worker position state of `PairWorker` (`core/pair_manager.py`,
`__init__` lines 49-76).  The candle cache and exchange handles are not part
of the position state and are passed to the operations as explicit inputs. -/
structure PairState where
  position_open : Bool := false
  order_in_progress : Bool := false
  direction : Dir := Dir.LONG
  entry_price : Option ℚ := none
  take_profit_price : Option ℚ := none
  stop_loss_price : Option ℚ := none
  safety_orders_used : ℕ := 0
  total_qty : ℚ := 0
  total_cost : ℚ := 0
  average_price : ℚ := 0
  last_order_usdt : ℚ := 0
  safety_order_in_progress : Bool := false
  break_even_armed : Bool := false
  break_even_price : ℚ := 0
  last_close_timestamp : ℚ := 0
  last_close_price : ℚ := 0
deriving DecidableEq, Repr

/-- `PairWorker._recalculate_tp` (`core/pair_manager.py` lines 533-534). -/
def recalcTp (cfg : StrategySettings) (d : Dir) (avg : ℚ) : ℚ :=
  if d = Dir.LONG then avg * (1 + cfg.take_profit_pct / 100)
  else avg * (1 - cfg.take_profit_pct / 100)

/-- `PairWorker._recalculate_sl` (`core/pair_manager.py` lines 316-321). -/
def recalcSl (cfg : StrategySettings) (d : Dir) (avg : ℚ) : ℚ :=
  if d = Dir.LONG then avg * (1 - cfg.stop_loss_pct / 100)
  else avg * (1 + cfg.stop_loss_pct / 100)

/-- The fill-bookkeeping block of `PairWorker._open_order_with_usdt`
(`core/pair_manager.py` lines 301-309): entry commission is added to cost,
the average is recomputed as cost over quantity, TP/SL are recomputed and the
break-even price is reset to the new average. -/
def applyFill (s : PairState) (cfg : StrategySettings) (qty price : ℚ) : PairState :=
  let commission := cfg.commission_pct / 100 * qty * price
  let q := s.total_qty + qty
  let c := s.total_cost + qty * price + commission
  let avg := c / q
  { s with
    position_open := true
    entry_price := some (s.entry_price.getD price)
    total_qty := q
    total_cost := c
    average_price := avg
    take_profit_price := some (recalcTp cfg s.direction avg)
    stop_loss_price := some (recalcSl cfg s.direction avg)
    break_even_price := avg }

/-- `PairWorker._open_order_with_usdt` (`core/pair_manager.py` lines 261-314).
The exchange/paper fill is abstracted as `outcome : Option (ℚ × ℚ)`:
`some (qty, price)` for a filled order, `none` when the order manager
returned no fill (no price in paper mode, a non-dict result, timeout).
`last_order_usdt` is assigned before the fill is attempted (line 265), so it
is updated even when no fill happens; the in-progress flag is released by the
`finally` block (line 314). -/
def openOrderWithUsdt (s : PairState) (cfg : StrategySettings) (usdt : ℚ)
    (outcome : Option (ℚ × ℚ)) : PairState :=
  if s.order_in_progress then s
  else
    let s1 := { s with last_order_usdt := usdt }
    let s2 := match outcome with
      | none => s1
      | some (q, p) => applyFill s1 cfg q p
    { s2 with order_in_progress := false }

/-- `PairWorker._reset_position_state` (`core/pair_manager.py` lines 536-549). -/
def resetPositionState (s : PairState) : PairState :=
  { s with
    position_open := false
    order_in_progress := false
    entry_price := none
    take_profit_price := none
    stop_loss_price := none
    safety_orders_used := 0
    total_qty := 0
    total_cost := 0
    average_price := 0
    last_order_usdt := 0
    safety_order_in_progress := false
    break_even_armed := false
    break_even_price := 0 }

/-- DCA trigger condition of `PairWorker._process_dca`
(`core/pair_manager.py` line 373). -/
def liveDcaTrigger (d : Dir) (avg step price : ℚ) : Bool :=
  if d = Dir.LONG then decide (price ≤ avg * (1 - step))
  else decide (avg * (1 + step) ≤ price)

/-- Safety-order notional of `PairWorker._process_dca`
(`core/pair_manager.py` line 380). -/
def liveNextSafetyUsdt (lastOrderUsdt volumeMultiplier : ℚ) : ℚ :=
  lastOrderUsdt * volumeMultiplier

/-- `PairWorker._process_dca` (`core/pair_manager.py` lines 362-403).
`price` is the last ticker value (`websocket_manager.prices.get`), `outcome`
the abstracted result of the safety order placement as in
`openOrderWithUsdt`.  Note the source re-checks `self.position_open` after the
order attempt (line 382) and otherwise increments `safety_orders_used`,
escalates `last_order_usdt` and resets the break-even price (lines 385-387). -/
def processDca (s : PairState) (cfg : StrategySettings) (price : Option ℚ)
    (outcome : Option (ℚ × ℚ)) : PairState :=
  if !s.position_open || s.safety_order_in_progress || s.order_in_progress then s
  else if cfg.safety_orders_count ≤ s.safety_orders_used then s
  else
    match price with
    | none => s
    | some p =>
      if s.average_price ≤ 0 then s
      else
        let step := cfg.safety_step_pct / 100
        if !liveDcaTrigger s.direction s.average_price step p then s
        else
          let safetyUsdt := liveNextSafetyUsdt s.last_order_usdt cfg.volume_multiplier
          let s1 := openOrderWithUsdt { s with safety_order_in_progress := true } cfg safetyUsdt outcome
          if !s1.position_open then { s1 with safety_order_in_progress := false }
          else
            { s1 with
              last_order_usdt := safetyUsdt
              safety_orders_used := s1.safety_orders_used + 1
              break_even_price := s1.average_price
              safety_order_in_progress := false }

/-- Exit PnL of `PairWorker._close_position` (`core/pair_manager.py`
lines 516-521). -/
def liveClosePnl (d : Dir) (avg cost exitPrice qty cpct : ℚ) : ℚ :=
  let exitCommission := cpct / 100 * qty * exitPrice
  let gross := if d = Dir.LONG then exitPrice * qty else (2 * avg - exitPrice) * qty
  (gross - exitCommission) - cost

/-- `PairWorker._close_position` (`core/pair_manager.py` lines 501-531).
`closeResult` abstracts the close fill as `some (exit_price, quantity)`
(paper close, `close_position_futures` or `close_position_spot`), `none` when
the close returned nothing (line 513); `now` is the loop clock value recorded
as `_last_close_timestamp`.  Returns the reported PnL and the new state. -/
def closePositionStep (s : PairState) (cfg : StrategySettings)
    (closeResult : Option (ℚ × ℚ)) (now : ℚ) : Option ℚ × PairState :=
  match closeResult with
  | none => (none, s)
  | some (exitPrice, qty) =>
    let pnl := liveClosePnl s.direction s.average_price s.total_cost exitPrice qty cfg.commission_pct
    (some pnl,
      { resetPositionState s with
        last_close_timestamp := now
        last_close_price := exitPrice })

/-- `OrderManager.close_position_futures` (`core/order_manager.py`
lines 212-241): no result when the exchange reports a zero position or the
close order fails; otherwise the exit price is the fill average with the
ticker as fallback (`price_source.get(symbol, 0.0)`), the quantity the
absolute position amount. -/
def futuresCloseResult (positionAmt avgPrice : ℚ) (ticker : Option ℚ)
    (orderOk : Bool) : Option (ℚ × ℚ) :=
  if positionAmt = 0 then none
  else if !orderOk then none
  else some ((if 0 < avgPrice then avgPrice else ticker.getD 0), |positionAmt|)

/-- `PairWorker._periodic_position_sync` (`core/pair_manager.py`
lines 442-471), after the 30-second gate and the position fetch:
`positionAmt`/`entryPriceField` are the exchange position fields (missing
fields read as 0, and a zero `entryPrice` falls back to the local average via
the `or` on line 465). -/
def periodicSync (s : PairState) (cfg : StrategySettings) (isFut : Bool)
    (positionAmt entryPriceField : ℚ) : PairState :=
  let realQty := |positionAmt|
  if s.position_open ∧ realQty = 0 then resetPositionState s
  else if s.position_open ∧ isFut = true ∧ 1/1000000 < |realQty - s.total_qty| then
    let entry := if entryPriceField = 0 then s.average_price else entryPriceField
    { s with
      total_qty := realQty
      average_price := entry
      total_cost := entry * realQty
      take_profit_price := some (recalcTp cfg s.direction entry) }
  else s

/-- The runtime invariants of claim C1 plus the auxiliary fact
`0 ≤ total_qty` (the quantity is a sum of fill quantities), which is needed
for the invariants to be inductive across fills. -/
def RuntimeInv (cfg : StrategySettings) (s : PairState) : Prop :=
  (s.position_open = true ↔ 0 < s.total_qty) ∧
  (0 < s.total_qty → s.average_price = s.total_cost / s.total_qty) ∧
  s.safety_orders_used ≤ cfg.safety_orders_count ∧
  0 ≤ s.total_qty

instance (cfg : StrategySettings) (s : PairState) : Decidable (RuntimeInv cfg s) := by
  unfold RuntimeInv; infer_instance

/-- Every fill an outcome may carry has positive quantity. -/
def PosOutcome (outcome : Option (ℚ × ℚ)) : Prop :=
  ∀ q p, outcome = some (q, p) → 0 < q

lemma applyFill_inv (cfg : StrategySettings) (s : PairState) (qty price : ℚ)
    (hs : RuntimeInv cfg s) (hq : 0 < qty) : RuntimeInv cfg (applyFill s cfg qty price) := by
  obtain ⟨_, _, hcnt, hnn⟩ := hs
  have hpos : 0 < s.total_qty + qty := by linarith
  refine ⟨by simpa [applyFill] using hpos, ?_, by simpa [applyFill] using hcnt, ?_⟩
  · intro _
    simp [applyFill]
  · simp only [applyFill]
    linarith

lemma applyFill_used (cfg : StrategySettings) (s : PairState) (qty price : ℚ) :
    (applyFill s cfg qty price).safety_orders_used = s.safety_orders_used := by
  simp [applyFill]

lemma openOrder_inv (cfg : StrategySettings) (s : PairState) (usdt : ℚ)
    (outcome : Option (ℚ × ℚ)) (hs : RuntimeInv cfg s) (ho : PosOutcome outcome) :
    RuntimeInv cfg (openOrderWithUsdt s cfg usdt outcome) := by
  obtain ⟨h1, h2, h3, h4⟩ := hs
  unfold openOrderWithUsdt
  split
  · exact ⟨h1, h2, h3, h4⟩
  · cases outcome with
    | none => exact ⟨by simpa using h1, by simpa using h2, by simpa using h3, by simpa using h4⟩
    | some qp =>
      obtain ⟨q, p⟩ := qp
      have hq : 0 < q := ho q p rfl
      have := applyFill_inv cfg { s with last_order_usdt := usdt } q p
        ⟨by simpa using h1, by simpa using h2, by simpa using h3, by simpa using h4⟩ hq
      obtain ⟨g1, g2, g3, g4⟩ := this
      exact ⟨by simpa using g1, by simpa using g2, by simpa using g3, by simpa using g4⟩

lemma openOrder_used (cfg : StrategySettings) (s : PairState) (usdt : ℚ)
    (outcome : Option (ℚ × ℚ)) :
    (openOrderWithUsdt s cfg usdt outcome).safety_orders_used = s.safety_orders_used := by
  unfold openOrderWithUsdt
  split
  · rfl
  · cases outcome with
    | none => simp
    | some qp => obtain ⟨q, p⟩ := qp; simp [applyFill_used]

lemma reset_inv (cfg : StrategySettings) (s : PairState) :
    RuntimeInv cfg (resetPositionState s) := by
  refine ⟨by simp [resetPositionState], by simp [resetPositionState], ?_, by simp [resetPositionState]⟩
  simp [resetPositionState]

/-- Abstraction of the pandas DataFrame passed to the strategy, carrying the
emptiness flag tested by `generate_signal` and the values computed by the
(out-of-scope) `IndicatorEngine` on it: `rsi`, `ema`, `adx`, `atr` are the
indicator results (`none` when the engine returns None), `close` the last
close, and `volLen`, `lastVol`, `avgVol` the quantities read by
`check_volume_spike` (frame length, last volume, mean of the previous up to
20 volumes). -/
structure Frame where
  isEmpty : Bool
  rsi : Option ℚ
  ema : Option ℚ
  adx : Option ℚ
  atr : Option ℚ
  close : ℚ
  volLen : ℕ
  lastVol : ℚ
  avgVol : ℚ
deriving DecidableEq, Repr

/-- `ConditionEngine.check_rsi` (`strategy/base_strategy.py` lines 79-85). -/
def checkRsi (cfg : StrategySettings) (f : Frame) (d : Dir) : Bool :=
  match f.rsi with
  | none => false
  | some r => if d = Dir.LONG then decide (r < cfg.rsi_level) else decide (cfg.rsi_level < r)

/-- `ConditionEngine.check_ema_trend` (`strategy/base_strategy.py` lines 87-94). -/
def checkEmaTrend (cfg : StrategySettings) (f : Frame) (d : Dir) : Bool :=
  match f.ema with
  | none => false
  | some e => if d = Dir.LONG then decide (e < f.close) else decide (f.close < e)

/-- `ConditionEngine.check_adx` (`strategy/base_strategy.py` lines 96-100). -/
def checkAdx (cfg : StrategySettings) (f : Frame) : Bool :=
  match f.adx with
  | none => false
  | some a => decide (cfg.adx_threshold < a)

/-- `ConditionEngine.check_volume_spike` (`strategy/base_strategy.py`
lines 102-109). -/
def checkVolumeSpike (cfg : StrategySettings) (f : Frame) : Bool :=
  if f.volLen < 2 then false
  else if f.avgVol ≤ 0 then false
  else decide (f.avgVol * cfg.volume_spike_multiplier < f.lastVol)

/-- `ConditionEngine.check_atr_filter` (`strategy/base_strategy.py`
lines 111-115). -/
def checkAtrFilter (cfg : StrategySettings) (f : Frame) : Bool :=
  match f.atr with
  | none => false
  | some a => decide (cfg.atr_min_value < a)

/-- `ConditionEngine.evaluate_conditions` (`strategy/base_strategy.py`
lines 65-77): a disabled filter contributes `none`; the result is false when
no filter is enabled, else the conjunction of the enabled checks. -/
def evaluateConditions (cfg : StrategySettings) (f : Frame) (d : Dir) : Bool :=
  let checks : List (Option Bool) :=
    [ if cfg.use_rsi then some (checkRsi cfg f d) else none,
      if cfg.use_ema_trend_filter then some (checkEmaTrend cfg f d) else none,
      if cfg.use_adx_filter then some (checkAdx cfg f) else none,
      if cfg.use_volume_filter then some (checkVolumeSpike cfg f) else none,
      if cfg.use_atr_filter then some (checkAtrFilter cfg f) else none ]
  let enabled := checks.filterMap id
  if enabled.isEmpty then false else enabled.all id

/-- `BaseStrategy.generate_signal` (`strategy/base_strategy.py`
lines 137-156): None on an empty frame, else LONG is evaluated before
SHORT. -/
def generateSignal (cfg : StrategySettings) (f : Frame) : Option Dir :=
  if f.isEmpty then none
  else if evaluateConditions cfg f Dir.LONG then some Dir.LONG
  else if evaluateConditions cfg f Dir.SHORT then some Dir.SHORT
  else none

/-- `PairWorker._is_entry_blocked` (`core/pair_manager.py` lines 199-212).
`now` is the loop clock, `lastTs`/`lastPrice` the recorded close timestamp
and price, `price` the last ticker value (absent when no ticker arrived). -/
def isEntryBlocked (cfg : StrategySettings) (now lastTs lastPrice : ℚ)
    (price : Option ℚ) : Bool :=
  let cooldownSec := max 0 (cfg.cooldown_minutes * 60)
  if 0 < cooldownSec ∧ now - lastTs < cooldownSec then true
  else
    match price with
    | none => false
    | some p =>
      if 0 < lastPrice ∧ |p - lastPrice| / lastPrice * 100 < cfg.anti_reentry_threshold_pct then true
      else false

/-- `PairWorker._open_initial_position` (`core/pair_manager.py`
lines 214-238).  The direction is assigned from `futures_position_side` in
futures mode, else LONG, before sizing; `baseUsdt` abstracts the result of
`OrderManager.calculate_entry_size_usdt` (`none` = sizing rejected) and
`outcome` the entry fill as in `openOrderWithUsdt`. -/
def openInitialPosition (s : PairState) (cfg : StrategySettings) (isFut : Bool)
    (baseUsdt : Option ℚ) (outcome : Option (ℚ × ℚ)) : PairState :=
  if s.position_open || s.order_in_progress then s
  else if cfg.run_mode = RunMode.Backtest then s
  else
    let d := if isFut then cfg.futures_position_side else Dir.LONG
    let s1 := { s with direction := d }
    match baseUsdt with
    | none => s1
    | some usdt => openOrderWithUsdt s1 cfg usdt outcome

/-- The entry decision of `PairWorker._process_closed_candle_if_needed`
(`core/pair_manager.py` lines 166-196): nothing happens unless the candle
version advanced and enough candles are cached (both abstracted as Booleans);
the signal is generated and the initial entry path is taken only for a LONG
signal from a flat, idle worker that is not gated. -/
def processClosedCandleTick (s : PairState) (cfg : StrategySettings)
    (versionAdvanced enoughCandles : Bool) (f : Frame) (isFut : Bool)
    (now : ℚ) (price : Option ℚ) (baseUsdt : Option ℚ)
    (outcome : Option (ℚ × ℚ)) : PairState :=
  if !versionAdvanced then s
  else if !enoughCandles then s
  else
    let signal := generateSignal cfg f
    if signal = some Dir.LONG ∧ s.position_open = false ∧ s.order_in_progress = false then
      if isEntryBlocked cfg now s.last_close_timestamp s.last_close_price price then s
      else openInitialPosition s cfg isFut baseUsdt outcome
    else s

/-- `RiskManager.register_trade_result` (`core/risk_manager.py` lines 24-30),
as a function of the stored `consecutive_losses` counter: returns the updated
counter and the stop flag. -/
def registerTradeResult (consecutiveLosses : ℕ) (pnl : ℚ) : ℕ × Bool :=
  let l := if pnl < 0 then consecutiveLosses + 1 else 0
  (l, decide (3 ≤ l))

/-- OHLCV candle (`core/websocket_manager.py` lines 15-23). -/
structure Candle where
  open_ : ℚ
  high : ℚ
  low : ℚ
  close : ℚ
  volume : ℚ
deriving DecidableEq, Repr

/-- The `k` object of a Binance kline payload: the closed flag `x` and the
string fields `o/h/l/c/v`, each modelled as `none` when missing or not
parseable as a float (the `KeyError/TypeError/ValueError` cases of
`_handle_kline`). -/
structure KlineData where
  x : Bool
  o : Option ℚ
  h : Option ℚ
  l : Option ℚ
  c : Option ℚ
  v : Option ℚ
deriving DecidableEq, Repr

/-- A kline payload delivered to `WebSocketManager._handle_kline`:
`s` is the symbol field (`none` when absent; the empty string is also falsy
in the source guard), `k` the kline object (`none` when absent, in which case
`payload.get` yields an empty dict whose `x` is falsy). -/
structure KlinePayload where
  s : Option String
  k : Option KlineData
deriving DecidableEq, Repr

/-- Market caches of `WebSocketManager` (`core/websocket_manager.py`
lines 34-38) touched by the payload handlers. -/
structure FeedState where
  prices : String → ℚ
  candles : String → List Candle
  candle_versions : String → ℕ

/-- The guard-and-parse phase of `WebSocketManager._handle_kline`
(`core/websocket_manager.py` lines 189-204): `none` exactly when the handler
returns without touching the caches (missing/empty symbol, `k.x` falsy, or a
missing/unparseable field), `some (symbol, candle)` when a closed candle was
parsed. -/
def payloadParts (p : KlinePayload) : Option (String × Candle) :=
  match p.s with
  | none => none
  | some sym =>
    if sym = "" then none
    else
      match p.k with
      | none => none
      | some k =>
        if k.x = false then none
        else
          match k.o, k.h, k.l, k.c, k.v with
          | some o, some h, some l, some c, some v => some (sym, ⟨o, h, l, c, v⟩)
          | _, _, _, _, _ => none

/-- The cache-update phase of `WebSocketManager._handle_kline`
(`core/websocket_manager.py` lines 206-211): append the candle, drop the
oldest element when the list exceeds 200, bump the symbol's version. -/
def handleKline (p : KlinePayload) (st : FeedState) : FeedState :=
  match payloadParts p with
  | none => st
  | some (sym, candle) =>
    let data := st.candles sym ++ [candle]
    let data := if 200 < data.length then data.drop 1 else data
    { st with
      candles := Function.update st.candles sym data
      candle_versions := Function.update st.candle_versions sym (st.candle_versions sym + 1) }

/-- The `pairs_state` table of `core/state_store.py`: rows
`(pair_id, config_json, runtime_json)`.  JSON payloads are modelled by their
serialized text (`json.dumps`/`json.loads` round-trip), `updated_at` is
ignored. -/
abbrev PairsTable := List (String × String × String)

/-- The serialized empty JSON object used by the COALESCE defaults. -/
def emptyJson : String := "\x7b\x7d"

/-- Row lookup by primary key (the `WHERE pair_id = ?` subqueries and the
per-row read of `load_all_pairs`). -/
def lookupPair : PairsTable → String → Option (String × String)
  | [], _ => none
  | e :: t, id => if e.1 = id then some (e.2.1, e.2.2) else lookupPair t id

/-- Number of rows with the given key; the `PRIMARY KEY` constraint keeps
this at most 1 in any reachable table. -/
def countKey (t : PairsTable) (id : String) : ℕ :=
  (t.filter (fun e => e.1 = id)).length

/-- `StateStore.save_pair_config` (`core/state_store.py` lines 44-55):
insert `(id, config, COALESCE(stored runtime, empty object))`; on key
conflict only `config_json` (and `updated_at`) is overwritten, so the stored
runtime column is preserved. -/
def savePairConfig : PairsTable → String → String → PairsTable
  | [], id, c => [(id, c, emptyJson)]
  | e :: t, id, c => if e.1 = id then (id, c, e.2.2) :: t else e :: savePairConfig t id c

/-- `StateStore.save_pair_runtime` (`core/state_store.py` lines 57-68):
symmetric to `savePairConfig`, preserving the stored config column. -/
def savePairRuntime : PairsTable → String → String → PairsTable
  | [], id, r => [(id, emptyJson, r)]
  | e :: t, id, r => if e.1 = id then (id, e.2.1, r) :: t else e :: savePairRuntime t id r

/-- `StateStore.load_all_pairs` (`core/state_store.py` lines 70-78): selects
every row and parses the two JSON columns; on the semantic values this is the
identity on the table. -/
def loadAllPairs (t : PairsTable) : PairsTable := t

/-- `BacktestPosition` dataclass (`core/backtest_engine.py` lines 14-22). -/
structure BacktestPosition where
  direction : Dir
  total_qty : ℚ
  total_cost : ℚ
  average_price : ℚ
  last_order_usdt : ℚ
  safety_orders_used : ℕ := 0
  break_even_armed : Bool := false
deriving DecidableEq, Repr

/-- `BacktestEngine.simulate_trade` (`core/backtest_engine.py`
lines 197-205): quantity is notional over `max(price, 1e-9)`; cost carries no
commission. -/
def btSimulateTrade (d : Dir) (usdt price : ℚ) : BacktestPosition :=
  let qty := usdt / max price (1/1000000000)
  { direction := d
    total_qty := qty
    total_cost := qty * price
    average_price := price
    last_order_usdt := usdt }

/-- The per-bar entry signal of `BacktestEngine.run_backtest`
(`core/backtest_engine.py` lines 123-127), on the precomputed `rsi`, `ema`,
`adx` columns and the bar close: the thresholds are `rsi_level` and the
constant 20, ignoring the filter toggles and `adx_threshold`. -/
def btSignal (cfg : StrategySettings) (rsi ema adx price : ℚ) : Option Dir :=
  if rsi < cfg.rsi_level ∧ ema < price ∧ 20 < adx then some Dir.LONG
  else if cfg.rsi_level < rsi ∧ price < ema ∧ 20 < adx then some Dir.SHORT
  else none

/-- DCA trigger of `BacktestEngine.run_backtest` (`core/backtest_engine.py`
lines 143-148). -/
def btDcaTrigger (d : Dir) (avg step price : ℚ) : Bool :=
  if d = Dir.LONG then decide (price ≤ avg * (1 - step))
  else decide (avg * (1 + step) ≤ price)

/-- Safety-order notional of `BacktestEngine.run_backtest`
(`core/backtest_engine.py` line 150). -/
def btNextUsdt (lastOrderUsdt volumeMultiplier : ℚ) : ℚ :=
  lastOrderUsdt * volumeMultiplier

/-- The DCA update of `BacktestEngine.run_backtest`
(`core/backtest_engine.py` lines 143-156). -/
def btDcaStep (cfg : StrategySettings) (pos : BacktestPosition) (price : ℚ) : BacktestPosition :=
  let step := cfg.safety_step_pct / 100
  if btDcaTrigger pos.direction pos.average_price step price
      ∧ pos.safety_orders_used < cfg.safety_orders_count then
    let nextUsdt := btNextUsdt pos.last_order_usdt cfg.volume_multiplier
    let added := btSimulateTrade pos.direction nextUsdt price
    let q := pos.total_qty + added.total_qty
    let c := pos.total_cost + added.total_cost
    { pos with
      total_qty := q
      total_cost := c
      average_price := c / max q (1/1000000000)
      last_order_usdt := nextUsdt
      safety_orders_used := pos.safety_orders_used + 1 }
  else pos

/-- Break-even gain percentage of `BacktestEngine.run_backtest`
(`core/backtest_engine.py` lines 159-166). -/
def btBreakEvenGain (d : Dir) (avg price : ℚ) : ℚ :=
  if d = Dir.LONG then (price - avg) / avg * 100 else (avg - price) / avg * 100

/-- Break-even gain percentage of `PairWorker._check_break_even`
(`core/pair_manager.py` line 414). -/
def liveBreakEvenGain (d : Dir) (avg price : ℚ) : ℚ :=
  if d = Dir.LONG then (price - avg) / avg * 100 else (avg - price) / avg * 100

/-- Take-profit threshold of `BacktestEngine.run_backtest`
(`core/backtest_engine.py` lines 179-183). -/
def btTp (cfg : StrategySettings) (d : Dir) (avg : ℚ) : ℚ :=
  if d = Dir.LONG then avg * (1 + cfg.take_profit_pct / 100)
  else avg * (1 - cfg.take_profit_pct / 100)

/-- `BacktestEngine._close_position` (`core/backtest_engine.py`
lines 236-243). -/
def btClosePnl (pos : BacktestPosition) (exitPrice cpct : ℚ) : ℚ :=
  let qty := pos.total_qty
  let commission := cpct / 100 * qty * exitPrice
  let gross := if pos.direction = Dir.LONG then qty * exitPrice
    else qty * (2 * pos.average_price - exitPrice)
  (gross - commission) - pos.total_cost

lemma processDca_inv (cfg : StrategySettings) (s : PairState) (price : Option ℚ)
    (outcome : Option (ℚ × ℚ)) (hs : RuntimeInv cfg s) (ho : PosOutcome outcome) :
    RuntimeInv cfg (processDca s cfg price outcome) := by
  unfold processDca
  dsimp only
  split
  · exact hs
  · split
    · exact hs
    · rename_i hcap
      cases price with
      | none => exact hs
      | some p =>
        dsimp only
        split
        · exact hs
        · split
          · exact hs
          · have hsF : RuntimeInv cfg { s with safety_order_in_progress := true } := by
              obtain ⟨a, b, c, d⟩ := hs
              exact ⟨by simpa using a, by simpa using b, by simpa using c, by simpa using d⟩
            have h1 := openOrder_inv cfg { s with safety_order_in_progress := true }
              (liveNextSafetyUsdt s.last_order_usdt cfg.volume_multiplier) outcome hsF ho
            have hused := openOrder_used cfg { s with safety_order_in_progress := true }
              (liveNextSafetyUsdt s.last_order_usdt cfg.volume_multiplier) outcome
            split
            · obtain ⟨a, b, c, d⟩ := h1
              exact ⟨by simpa using a, by simpa using b, by simpa using c, by simpa using d⟩
            · obtain ⟨a, b, c, d⟩ := h1
              refine ⟨by simpa using a, by simpa using b, ?_, by simpa using d⟩
              have hlt : s.safety_orders_used < cfg.safety_orders_count :=
                Nat.lt_of_not_le hcap
              simp only [hused]
              omega

lemma closeStep_inv (cfg : StrategySettings) (s : PairState)
    (closeResult : Option (ℚ × ℚ)) (now : ℚ) (hs : RuntimeInv cfg s) :
    RuntimeInv cfg (closePositionStep s cfg closeResult now).2 := by
  cases closeResult with
  | none => simpa [closePositionStep] using hs
  | some ep =>
    obtain ⟨e, q⟩ := ep
    refine ⟨?_, ?_, ?_, ?_⟩ <;> simp [closePositionStep, resetPositionState]

lemma sync_inv (cfg : StrategySettings) (s : PairState) (isFut : Bool)
    (amt ep : ℚ) (hs : RuntimeInv cfg s) :
    RuntimeInv cfg (periodicSync s cfg isFut amt ep) := by
  unfold periodicSync
  dsimp only
  by_cases hg : s.position_open = true ∧ |amt| = 0
  · rw [if_pos hg]
    exact reset_inv cfg s
  · rw [if_neg hg]
    by_cases hd : s.position_open = true ∧ isFut = true ∧ 1/1000000 < abs (|amt| - s.total_qty)
    · rw [if_pos hd]
      obtain ⟨hopen, hisFut, _⟩ := hd
      have hne : |amt| ≠ 0 := by
        intro h0
        exact hg ⟨hopen, h0⟩
      have hqpos : 0 < |amt| := lt_of_le_of_ne (abs_nonneg amt) (Ne.symm hne)
      obtain ⟨a, b, c, d⟩ := hs
      refine ⟨?_, ?_, by simpa using c, by simpa using le_of_lt hqpos⟩
      · simpa [hopen] using hqpos
      · intro _
        simp only
        rw [mul_div_cancel_right₀ _ hne]
    · rw [if_neg hd]
      exact hs

/-- C1: the Pair Worker operations that touch the position — the fill
bookkeeping of `_open_order_with_usdt` (entry and safety fills), the DCA path
`_process_dca`, the close path `_close_position`, the reconciliation in
`_periodic_position_sync` and `_reset_position_state` — preserve the runtime
invariants: `position_open` holds iff `total_qty > 0`; when `total_qty > 0`,
`average_price = total_cost / total_qty` (hence
`|average_price · total_qty − total_cost| ≤ ε` with ε = 0 over exact
arithmetic); and `safety_orders_used ≤ safety_orders_count`.  The invariant
is strengthened with `0 ≤ total_qty` (quantities are sums of positive fill
quantities) to make it inductive. -/
theorem pairWorker_preserves_runtime_invariants (cfg : StrategySettings)
    (s : PairState) (hs : RuntimeInv cfg s) :
    (∀ usdt outcome, PosOutcome outcome →
        RuntimeInv cfg (openOrderWithUsdt s cfg usdt outcome)) ∧
    (∀ price outcome, PosOutcome outcome →
        RuntimeInv cfg (processDca s cfg price outcome)) ∧
    (∀ closeResult now, RuntimeInv cfg (closePositionStep s cfg closeResult now).2) ∧
    (∀ isFut amt ep, RuntimeInv cfg (periodicSync s cfg isFut amt ep)) ∧
    RuntimeInv cfg (resetPositionState s) ∧
    (s.position_open = true → |s.average_price * s.total_qty - s.total_cost| ≤ 0) := by
  refine ⟨fun usdt outcome ho => openOrder_inv cfg s usdt outcome hs ho,
    fun price outcome ho => processDca_inv cfg s price outcome hs ho,
    fun closeResult now => closeStep_inv cfg s closeResult now hs,
    fun isFut amt ep => sync_inv cfg s isFut amt ep hs,
    reset_inv cfg s, ?_⟩
  intro hopen
  obtain ⟨a, b, _, _⟩ := hs
  have hq : 0 < s.total_qty := a.mp hopen
  have havg := b hq
  have : s.average_price * s.total_qty - s.total_cost = 0 := by
    rw [havg]
    field_simp
  rw [this]
  simp

/-- Default settings (the dataclass defaults) and the freshly constructed
worker state, used as concrete witnesses. -/
def cfg0 : StrategySettings := {}

/-- Freshly constructed flat worker state (`PairWorker.__init__`). -/
def flat0 : PairState := {}

theorem pairWorker_preserves_runtime_invariants_witness :
    RuntimeInv cfg0 (openOrderWithUsdt flat0 cfg0 25 (some (1, 100))) := by
  refine (pairWorker_preserves_runtime_invariants cfg0 flat0 (by decide)).1 25
    (some (1, 100)) ?_
  intro q p h
  simp only [Option.some.injEq, Prod.mk.injEq] at h
  rw [← h.1]
  norm_num

/-- C3: on a successful close with exit price `exitPrice` and quantity `qty`
the reported PnL is `(gross − exit_commission) − total_cost` with
`exit_commission = commission_pct/100 · qty · exit` and `gross = exit · qty`
for LONG or `(2 · average_price − exit) · qty` for SHORT; the state is reset
to flat with `last_close_timestamp`/`last_close_price` recorded; a close with
no result changes nothing; and the futures exit price is the fill average
with the ticker as fallback. -/
theorem closePosition_accounting (s : PairState) (cfg : StrategySettings)
    (exitPrice qty now amt avgP : ℚ) (tick : Option ℚ) :
    ((closePositionStep s cfg (some (exitPrice, qty)) now).1 =
      some (((if s.direction = Dir.LONG then exitPrice * qty
              else (2 * s.average_price - exitPrice) * qty)
             - cfg.commission_pct / 100 * qty * exitPrice) - s.total_cost)) ∧
    ((closePositionStep s cfg (some (exitPrice, qty)) now).2 =
      { resetPositionState s with
        last_close_timestamp := now
        last_close_price := exitPrice }) ∧
    (closePositionStep s cfg none now = (none, s)) ∧
    (amt ≠ 0 →
      futuresCloseResult amt avgP tick true =
        some ((if 0 < avgP then avgP else tick.getD 0), |amt|)) := by
  refine ⟨?_, rfl, rfl, ?_⟩
  · simp [closePositionStep, liveClosePnl]
  · intro h
    simp [futuresCloseResult, h]

theorem closePosition_accounting_witness :
    futuresCloseResult 2 0 (some 99) true = some (99, 2) := by
  have h := (closePosition_accounting flat0 cfg0 100 1 5 2 0 (some 99)).2.2.2 (by norm_num)
  simpa using h

/-- State with an open LONG position about to trigger a safety order:
average 100, one unit held at cost 100, no safety order used yet. -/
def dcaFailState : PairState :=
  { position_open := true
    direction := Dir.LONG
    entry_price := some 100
    take_profit_price := some 101
    safety_orders_used := 0
    total_qty := 1
    total_cost := 100
    average_price := 100
    last_order_usdt := 100
    break_even_price := 100 }

/-- C4 (failing input for the code bug): with the DCA trigger hit at price 97
but the safety order NOT filled (`outcome = none`: timeout, rejection or
failed placement), `_process_dca` still increments `safety_orders_used` to 1
and escalates `last_order_usdt` to `100 · 1.5 = 150`, although no fill
happened (`total_qty`/`total_cost` are unchanged).  The guard
`if not self.position_open` on line 382 cannot detect a failed safety fill
because the position is already open. -/
theorem dca_increments_on_failed_fill :
    (processDca dcaFailState cfg0 (some 97) none).safety_orders_used = 1 ∧
    (processDca dcaFailState cfg0 (some 97) none).last_order_usdt = 150 ∧
    (processDca dcaFailState cfg0 (some 97) none).total_qty = dcaFailState.total_qty ∧
    (processDca dcaFailState cfg0 (some 97) none).total_cost = dcaFailState.total_cost := by
  refine ⟨?_, ?_, ?_, ?_⟩ <;>
    simp [processDca, dcaFailState, cfg0, liveDcaTrigger, liveNextSafetyUsdt,
      openOrderWithUsdt, applyFill] <;> norm_num

/-- C5 counterexample: the claim predicts that a call with `pnl = 0`
(non-positive) increments the streak from 2 to 3 and returns true; the code
resets the counter to 0 and returns false, because the test is `pnl < 0`. -/
theorem registerTrade_nonpositive_counterexample :
    (registerTradeResult 2 0).1 = 0 ∧ (registerTradeResult 2 0).2 = false ∧
    ¬((registerTradeResult 2 0).1 = 2 + 1 ∧ (registerTradeResult 2 0).2 = true) := by
  decide

/-- C5 (amended): a call with strictly negative pnl increments the streak, a
call with pnl ≥ 0 (zero included) resets it to zero, and the call returns
true iff the updated streak is at least 3. -/
theorem registerTrade_strict_negative (losses : ℕ) (pnl : ℚ) :
    (pnl < 0 → (registerTradeResult losses pnl).1 = losses + 1) ∧
    (0 ≤ pnl → (registerTradeResult losses pnl).1 = 0) ∧
    ((registerTradeResult losses pnl).2 = true ↔ 3 ≤ (registerTradeResult losses pnl).1) := by
  refine ⟨?_, ?_, ?_⟩
  · intro h
    simp [registerTradeResult, h]
  · intro h
    simp [registerTradeResult, not_lt.mpr h]
  · by_cases h : pnl < 0 <;> simp [registerTradeResult, h]

theorem registerTrade_strict_negative_witness :
    (registerTradeResult 2 (-1)).1 = 2 + 1 ∧
    ((registerTradeResult 2 (-1)).2 = true ↔ 3 ≤ (registerTradeResult 2 (-1)).1) :=
  ⟨(registerTrade_strict_negative 2 (-1)).1 (by norm_num),
   (registerTrade_strict_negative 2 (-1)).2.2⟩

lemma cooldown_cond_iff (cm now lastTs : ℚ) :
    (0 < max 0 (cm * 60) ∧ now - lastTs < max 0 (cm * 60)) ↔
    (0 < cm ∧ now - lastTs < cm * 60) := by
  constructor
  · rintro ⟨h1, h2⟩
    have hpos : 0 < cm * 60 := by
      rcases lt_max_iff.mp h1 with h | h
      · exact absurd h (lt_irrefl 0)
      · exact h
    have hcm : 0 < cm := by nlinarith
    rw [max_eq_right (le_of_lt hpos)] at h2
    exact ⟨hcm, h2⟩
  · rintro ⟨h1, h2⟩
    have hpos : 0 < cm * 60 := mul_pos h1 (by norm_num)
    rw [max_eq_right (le_of_lt hpos)]
    exact ⟨hpos, h2⟩

/-- C6: entry is refused exactly when the gate is active — fewer than
`cooldown_minutes · 60` seconds since the last close (for positive
`cooldown_minutes`), or a known last-close price (> 0) with the current
ticker within `anti_reentry_threshold_pct` percent of it. -/
theorem entry_gate_characterization (cfg : StrategySettings)
    (now lastTs lastPrice : ℚ) (price : Option ℚ) :
    isEntryBlocked cfg now lastTs lastPrice price = true ↔
      ((0 < cfg.cooldown_minutes ∧ now - lastTs < cfg.cooldown_minutes * 60) ∨
       (0 < lastPrice ∧ ∃ p, price = some p ∧
          |p - lastPrice| / lastPrice * 100 < cfg.anti_reentry_threshold_pct)) := by
  unfold isEntryBlocked
  dsimp only
  cases price with
  | none =>
    by_cases hC1 : 0 < max 0 (cfg.cooldown_minutes * 60) ∧
        now - lastTs < max 0 (cfg.cooldown_minutes * 60)
    · rw [if_pos hC1]
      simp only [true_iff]
      exact Or.inl ((cooldown_cond_iff _ _ _).mp hC1)
    · rw [if_neg hC1]
      simp only [Bool.false_eq_true, false_iff]
      rintro (hD1 | ⟨hlp, p, hp, _⟩)
      · exact hC1 ((cooldown_cond_iff _ _ _).mpr hD1)
      · exact Option.noConfusion hp
  | some p =>
    by_cases hC1 : 0 < max 0 (cfg.cooldown_minutes * 60) ∧
        now - lastTs < max 0 (cfg.cooldown_minutes * 60)
    · rw [if_pos hC1]
      simp only [true_iff]
      exact Or.inl ((cooldown_cond_iff _ _ _).mp hC1)
    · rw [if_neg hC1]
      dsimp only
      by_cases hC2 : 0 < lastPrice ∧
          |p - lastPrice| / lastPrice * 100 < cfg.anti_reentry_threshold_pct
      · rw [if_pos hC2]
        simp only [true_iff]
        exact Or.inr ⟨hC2.1, p, rfl, hC2.2⟩
      · rw [if_neg hC2]
        simp only [Bool.false_eq_true, false_iff]
        rintro (hD1 | ⟨hlp, q, hq, hlt⟩)
        · exact hC1 ((cooldown_cond_iff _ _ _).mpr hD1)
        · have hqp : q = p := (Option.some.inj hq).symm
          rw [hqp] at hlt
          exact hC2 ⟨hlp, hlt⟩

/-- C7: a kline payload appends exactly one candle (keeping at most the last
200) and bumps `candle_versions[symbol]` by exactly 1 iff it is well-formed
with `k.x` true (`payloadParts` returns the parsed symbol and candle), and
leaves prices untouched; a payload with `k.x` false or malformed
(`payloadParts = none`) leaves the whole feed state unchanged. -/
theorem kline_version_increment (p : KlinePayload) (st : FeedState) :
    (∀ sym candle, payloadParts p = some (sym, candle) →
      (handleKline p st).candle_versions sym = st.candle_versions sym + 1 ∧
      (handleKline p st).candles sym =
        (if 200 < (st.candles sym ++ [candle]).length
         then (st.candles sym ++ [candle]).drop 1
         else st.candles sym ++ [candle]) ∧
      (handleKline p st).prices = st.prices ∧
      ((st.candles sym).length ≤ 200 → ((handleKline p st).candles sym).length ≤ 200)) ∧
    (payloadParts p = none → handleKline p st = st) := by
  constructor
  · intro sym candle h
    unfold handleKline
    rw [h]
    dsimp only
    refine ⟨by simp, by simp, rfl, ?_⟩
    intro hlen
    simp only [Function.update_same]
    split
    · simp only [List.length_drop, List.length_append, List.length_cons, List.length_nil]
      omega
    · rename_i hnot
      omega
  · intro h
    unfold handleKline
    rw [h]

/-- A concrete well-formed closed-candle payload. -/
def payload0 : KlinePayload :=
  { s := some "BTCUSDT"
    k := some { x := true, o := some 1, h := some 2, l := some 1, c := some 2, v := some 5 } }

/-- An empty feed state. -/
def feed0 : FeedState :=
  { prices := fun _ => 0, candles := fun _ => [], candle_versions := fun _ => 0 }

theorem kline_version_increment_witness :
    (handleKline payload0 feed0).candle_versions "BTCUSDT" =
      feed0.candle_versions "BTCUSDT" + 1 :=
  ((kline_version_increment payload0 feed0).1 "BTCUSDT" ⟨1, 2, 1, 2, 5⟩ rfl).1

lemma lookup_saveConfig_self (t : PairsTable) (id c : String) :
    lookupPair (savePairConfig t id c) id =
      some (c, match lookupPair t id with | some pr => pr.2 | none => emptyJson) := by
  induction t with
  | nil => simp [savePairConfig, lookupPair]
  | cons e t ih =>
    by_cases he : e.1 = id
    · simp [savePairConfig, lookupPair, he]
    · simp [savePairConfig, lookupPair, he, ih]

lemma lookup_saveRuntime_self (t : PairsTable) (id r : String) :
    lookupPair (savePairRuntime t id r) id =
      some ((match lookupPair t id with | some pr => pr.1 | none => emptyJson), r) := by
  induction t with
  | nil => simp [savePairRuntime, lookupPair]
  | cons e t ih =>
    by_cases he : e.1 = id
    · simp [savePairRuntime, lookupPair, he]
    · simp [savePairRuntime, lookupPair, he, ih]

lemma countKey_saveConfig (t : PairsTable) (id c : String) :
    countKey (savePairConfig t id c) id = max 1 (countKey t id) := by
  induction t with
  | nil => simp [savePairConfig, countKey]
  | cons e t ih =>
    by_cases he : e.1 = id
    · simp only [savePairConfig, if_pos he, countKey, List.filter_cons]
      simp only [countKey] at *
      simp [he]
    · simp only [savePairConfig, if_neg he, countKey, List.filter_cons]
      simp only [countKey] at ih
      simp [he, ih]

lemma countKey_saveRuntime (t : PairsTable) (id r : String) :
    countKey (savePairRuntime t id r) id = max 1 (countKey t id) := by
  induction t with
  | nil => simp [savePairRuntime, countKey]
  | cons e t ih =>
    by_cases he : e.1 = id
    · simp only [savePairRuntime, if_pos he, countKey, List.filter_cons]
      simp only [countKey] at *
      simp [he]
    · simp only [savePairRuntime, if_neg he, countKey, List.filter_cons]
      simp only [countKey] at ih
      simp [he, ih]

/-- C8: after `save_pair_config(id, c)` and `save_pair_runtime(id, r)` in
either order, `load_all_pairs` has exactly one row for `id`, holding config
`c` and runtime `r`; moreover each save preserves the sibling column of an
existing row (config-save keeps the stored runtime, runtime-save the stored
config). -/
theorem statestore_upsert_roundtrip (t : PairsTable) (id c r : String)
    (hpk : countKey t id ≤ 1) :
    (lookupPair (loadAllPairs (savePairRuntime (savePairConfig t id c) id r)) id =
        some (c, r) ∧
      countKey (savePairRuntime (savePairConfig t id c) id r) id = 1) ∧
    (lookupPair (loadAllPairs (savePairConfig (savePairRuntime t id r) id c)) id =
        some (c, r) ∧
      countKey (savePairConfig (savePairRuntime t id r) id c) id = 1) ∧
    (∀ c0 r0, lookupPair t id = some (c0, r0) →
      lookupPair (savePairConfig t id c) id = some (c, r0) ∧
      lookupPair (savePairRuntime t id r) id = some (c0, r)) := by
  refine ⟨⟨?_, ?_⟩, ⟨?_, ?_⟩, ?_⟩
  · unfold loadAllPairs
    rw [lookup_saveRuntime_self, lookup_saveConfig_self]
  · rw [countKey_saveRuntime, countKey_saveConfig]
    omega
  · unfold loadAllPairs
    rw [lookup_saveConfig_self, lookup_saveRuntime_self]
  · rw [countKey_saveConfig, countKey_saveRuntime]
    omega
  · intro c0 r0 h
    constructor
    · rw [lookup_saveConfig_self, h]
    · rw [lookup_saveRuntime_self, h]

theorem statestore_upsert_roundtrip_witness :
    lookupPair (loadAllPairs (savePairRuntime (savePairConfig [] "BTCUSDT" "cfgjson")
      "BTCUSDT" "rtjson")) "BTCUSDT" = some ("cfgjson", "rtjson") :=
  ((statestore_upsert_roundtrip [] "BTCUSDT" "cfgjson" "rtjson"
    (by simp [countKey])).1).1

/-- C9: on a non-empty frame, `generate_signal` returns LONG whenever the
enabled LONG filters validate (LONG wins any tie with SHORT), SHORT when only
the SHORT direction validates, none when neither does; and with every filter
toggle disabled the signal is none for every frame. -/
theorem generateSignal_characterization (cfg : StrategySettings) (f : Frame) :
    (f.isEmpty = false →
      ((evaluateConditions cfg f Dir.LONG = true →
          generateSignal cfg f = some Dir.LONG) ∧
       (evaluateConditions cfg f Dir.LONG = false →
          evaluateConditions cfg f Dir.SHORT = true →
          generateSignal cfg f = some Dir.SHORT) ∧
       (evaluateConditions cfg f Dir.LONG = false →
          evaluateConditions cfg f Dir.SHORT = false →
          generateSignal cfg f = none))) ∧
    (cfg.use_rsi = false → cfg.use_ema_trend_filter = false →
      cfg.use_adx_filter = false → cfg.use_volume_filter = false →
      cfg.use_atr_filter = false → generateSignal cfg f = none) := by
  constructor
  · intro hne
    refine ⟨?_, ?_, ?_⟩
    · intro hL
      simp [generateSignal, hne, hL]
    · intro hL hS
      simp [generateSignal, hne, hL, hS]
    · intro hL hS
      simp [generateSignal, hne, hL, hS]
  · intro h1 h2 h3 h4 h5
    have hev : ∀ d, evaluateConditions cfg f d = false := by
      intro d
      simp [evaluateConditions, h1, h2, h3, h4, h5]
    by_cases hne : f.isEmpty = true
    · simp [generateSignal, hne]
    · simp [generateSignal, hne, hev]

/-- Non-empty frame on which every default filter passes for LONG. -/
def frameLong : Frame :=
  { isEmpty := false, rsi := some 20, ema := some 100, adx := some 25
    atr := none, close := 110, volLen := 0, lastVol := 0, avgVol := 0 }

theorem generateSignal_characterization_witness :
    generateSignal cfg0 frameLong = some Dir.LONG :=
  ((generateSignal_characterization cfg0 frameLong).1 rfl).1 (by decide)

/-- C10: the initial-entry path of the closed-candle tick is taken only for a
LONG signal, so any tick whose generated signal is SHORT or none leaves the
worker state unchanged — in particular a flat worker stays flat, for every
settings record, including futures mode with `futures_position_side` set to
SHORT. -/
theorem short_signal_never_opens (s : PairState) (cfg : StrategySettings)
    (versionAdvanced enoughCandles : Bool) (f : Frame) (isFut : Bool)
    (now : ℚ) (price baseUsdt : Option ℚ) (outcome : Option (ℚ × ℚ))
    (hsig : generateSignal cfg f ≠ some Dir.LONG) :
    processClosedCandleTick s cfg versionAdvanced enoughCandles f isFut now
      price baseUsdt outcome = s := by
  unfold processClosedCandleTick
  dsimp only
  split
  · rfl
  · split
    · rfl
    · split
      · rename_i hcond
        exact absurd hcond.1 hsig
      · rfl

/-- Futures settings with a SHORT position side. -/
def cfgShortSide : StrategySettings :=
  { enable_futures := true, futures_position_side := Dir.SHORT }

/-- Non-empty frame whose default-filter signal is SHORT
(RSI 80 above level, close below EMA, ADX above threshold). -/
def frameShort : Frame :=
  { isEmpty := false, rsi := some 80, ema := some 120, adx := some 25
    atr := none, close := 100, volLen := 0, lastVol := 0, avgVol := 0 }

theorem short_signal_never_opens_witness :
    processClosedCandleTick flat0 cfgShortSide true true frameShort true 0
      none none none = flat0 :=
  short_signal_never_opens flat0 cfgShortSide true true frameShort true 0
    none none none (by decide)

/-- Settings with every filter toggle disabled. -/
def cfgAllOff : StrategySettings :=
  { use_rsi := false, use_ema_trend_filter := false, use_adx_filter := false
    use_volume_filter := false, use_atr_filter := false }

/-- C2 counterexample: the backtest entry rule and the commission accounting
do not equal the live ones.  With every live filter disabled the live signal
is none on any frame, yet the backtest rule — which ignores the toggles and
hard-codes `adx > 20` — emits LONG on the same indicator values (rsi 20,
ema 100, adx 25, close 110); and on the same 100-USDT fill at price 100 the
live bookkeeping records cost 100.1 (entry commission at the default
`commission_pct = 0.1` included) while the backtest records 100, so the
per-trade PnL sequences differ. -/
theorem backtest_live_divergence :
    btSignal cfgAllOff 20 100 25 110 = some Dir.LONG ∧
    generateSignal cfgAllOff
      { isEmpty := false, rsi := some 20, ema := some 100, adx := some 25
        atr := none, close := 110, volLen := 0, lastVol := 0, avgVol := 0 } = none ∧
    (applyFill flat0 cfg0 1 100).total_cost = 1001/10 ∧
    (btSimulateTrade Dir.LONG 100 100).total_cost = 100 := by
  refine ⟨by decide, by decide, ?_, ?_⟩
  · simp [applyFill, flat0, cfg0]
    norm_num
  · simp [btSimulateTrade]
    norm_num

/-- C2 (amended): the backtest simulation matches the live rules only on the
restricted configuration its hard-coded entry rule implements — RSI, EMA
trend and ADX filters enabled, volume and ATR filters disabled, and
`adx_threshold = 20` — and with the entry commission ignored: under those
toggles the entry signals coincide on the same indicator values, the DCA
trigger, cap sizing (`last_order_usdt · volume_multiplier`), take-profit
threshold, break-even gain and exit-PnL formulas are identical, and the
per-fill cost bookkeeping agrees exactly when `commission_pct = 0`. -/
theorem backtest_live_agreement_restricted :
    (∀ cfg : StrategySettings, cfg.use_rsi = true → cfg.use_ema_trend_filter = true →
      cfg.use_adx_filter = true → cfg.use_volume_filter = false →
      cfg.use_atr_filter = false → cfg.adx_threshold = 20 →
      ∀ (rsi ema adx price : ℚ) (atr : Option ℚ) (volLen : ℕ) (lastVol avgVol : ℚ),
        generateSignal cfg
          { isEmpty := false, rsi := some rsi, ema := some ema, adx := some adx
            atr := atr, close := price, volLen := volLen, lastVol := lastVol
            avgVol := avgVol } = btSignal cfg rsi ema adx price) ∧
    (∀ d avg step price, liveDcaTrigger d avg step price = btDcaTrigger d avg step price) ∧
    (∀ lastUsdt vm, liveNextSafetyUsdt lastUsdt vm = btNextUsdt lastUsdt vm) ∧
    (∀ cfg d avg, recalcTp cfg d avg = btTp cfg d avg) ∧
    (∀ d avg price, liveBreakEvenGain d avg price = btBreakEvenGain d avg price) ∧
    (∀ (d : Dir) (avg cost exitPrice qty cpct lastU : ℚ),
      liveClosePnl d avg cost exitPrice qty cpct =
        btClosePnl { direction := d, total_qty := qty, total_cost := cost
                     average_price := avg, last_order_usdt := lastU } exitPrice cpct) ∧
    (∀ (s : PairState) (cfg : StrategySettings) (qty price : ℚ),
      cfg.commission_pct = 0 →
      (applyFill s cfg qty price).total_cost = s.total_cost + qty * price) := by
  refine ⟨?_, ?_, ?_, ?_, ?_, ?_, ?_⟩
  · intro cfg h1 h2 h3 h4 h5 h6 rsi ema adx price atr volLen lastVol avgVol
    simp only [generateSignal, evaluateConditions, checkRsi, checkEmaTrend, checkAdx,
      btSignal, h1, h2, h3, h4, h5, h6]
    by_cases hr : rsi < cfg.rsi_level <;>
      by_cases he : ema < price <;>
      by_cases ha : (20:ℚ) < adx <;>
      by_cases hr2 : cfg.rsi_level < rsi <;>
      by_cases he2 : price < ema <;>
      simp [hr, he, ha, hr2, he2]
  · intro d avg step price
    rfl
  · intro lastUsdt vm
    rfl
  · intro cfg d avg
    rfl
  · intro d avg price
    rfl
  · intro d avg cost exitPrice qty cpct lastU
    cases d <;> simp [liveClosePnl, btClosePnl] <;> ring
  · intro s cfg qty price h
    simp [applyFill, h]

/-- Zero-commission settings. -/
def cfgZeroComm : StrategySettings := { commission_pct := 0 }

theorem backtest_live_agreement_restricted_witness :
    generateSignal cfg0
      { isEmpty := false, rsi := some 20, ema := some 100, adx := some 25
        atr := none, close := 110, volLen := 0, lastVol := 0, avgVol := 0 } =
      btSignal cfg0 20 100 25 110 ∧
    (applyFill flat0 cfgZeroComm 1 100).total_cost = flat0.total_cost + 1 * 100 :=
  ⟨backtest_live_agreement_restricted.1 cfg0 rfl rfl rfl rfl rfl rfl
      20 100 25 110 none 0 0 0,
   backtest_live_agreement_restricted.2.2.2.2.2.2 flat0 cfgZeroComm 1 100 rfl⟩
